import Mathlib

/-!
Verification of the sprite post-processing pipeline of `process_caveman.py`
(`remove_background_hd`).  The per-pixel float32 arithmetic of the source is
embedded exactly over `ℚ`; uint8 buffers carry `Nat` channels.  `np.std` is a
square root, so every comparison `np.std [r,g,b] < c` with `c ≥ 0` is embedded
as the equivalent comparison of the mean squared deviation against `c ^ 2`;
the bridge to the real square root is proved (`sqrt_variance_lt_iff`).
-/

namespace Caveman

/-- An RGBA sample of a uint8 buffer: four channels, each 0–255. -/
structure RGBA where
  r : Nat
  g : Nat
  b : Nat
  a : Nat
deriving DecidableEq

/-- An RGBA sample at the float stage of the pipeline, embedded exactly in `ℚ`. -/
structure RGBAq where
  r : ℚ
  g : ℚ
  b : ℚ
  a : ℚ
deriving DecidableEq

/-- A uint8 pixel buffer: `pix y x` is row-major like numpy's `data[y, x]`. -/
structure Image where
  width : Nat
  height : Nat
  pix : Nat → Nat → RGBA

/-- A float pixel buffer (the `np.float32` working array of the source). -/
structure ImageQ where
  width : Nat
  height : Nat
  pix : Nat → Nat → RGBAq

/-- Source line 34: `white_threshold = 235`. -/
def white_threshold : ℚ := 235

/-- Source line 35: `gradient_range = 40`. -/
def gradient_range : ℚ := 40

/-- Source line 51: the variance cutoff literal `15`. -/
def variance_cutoff : ℚ := 15

/-- Source line 79: `target_height = 80`. -/
def target_height : Nat := 80

/-- Source line 44: `brightness = 0.299 * r + 0.587 * g + 0.114 * b`. -/
def brightness (r g b : ℚ) : ℚ := 0.299 * r + 0.587 * g + 0.114 * b

/-- The square of source line 47's `color_variance = np.std([r, g, b])`:
the population variance (mean squared deviation) of the three channels.
`np.std` itself is the square root of this quantity. -/
def color_variance_sq (r g b : ℚ) : ℚ :=
  ((r - (r + g + b) / 3) ^ 2 + (g - (r + g + b) / 3) ^ 2 + (b - (r + g + b) / 3) ^ 2) / 3

/-- `np.clip x lo hi`. -/
def clip (lo hi x : ℚ) : ℚ := min hi (max lo x)

/-- Source lines 50–51: the pixel qualifies for transparency iff
`brightness >= white_threshold - gradient_range` and `np.std [r,g,b] < 15`
(the latter embedded squared). -/
def eligible (r g b : ℚ) : Prop :=
  white_threshold - gradient_range ≤ brightness r g b ∧
    color_variance_sq r g b < variance_cutoff ^ 2

instance (r g b : ℚ) : Decidable (eligible r g b) :=
  inferInstanceAs (Decidable (white_threshold - gradient_range ≤ brightness r g b ∧
    color_variance_sq r g b < variance_cutoff ^ 2))

/-- Source lines 50–54: the classifier confidence.  Inside the double branch it
is `np.clip ((brightness - (white_threshold - gradient_range)) / gradient_range) 0 1`;
pixels failing either test keep the initial value, i.e. factor `0`. -/
def alpha_factor (r g b : ℚ) : ℚ :=
  if eligible r g b then
    clip 0 1 ((brightness r g b - (white_threshold - gradient_range)) / gradient_range)
  else 0

/-- Source lines 28–30 and 57: the compositor copies RGB unchanged and writes
alpha `255 * (1 - alpha_factor)` (pixels with factor `0` keep the initial 255). -/
def composite (img : Image) : ImageQ :=
  ⟨img.width, img.height, fun y x =>
    ⟨(img.pix y x).r, (img.pix y x).g, (img.pix y x).b,
      255 * (1 - alpha_factor (img.pix y x).r (img.pix y x).g (img.pix y x).b)⟩⟩

/-- Source line 63: `np.clip(result, 0, 255).astype(np.uint8)`.  The cast
truncates toward zero; clipped values are nonnegative, so this is `Nat.floor`. -/
def toU8 (img : ImageQ) : Image :=
  ⟨img.width, img.height, fun y x =>
    ⟨⌊clip 0 255 (img.pix y x).r⌋₊, ⌊clip 0 255 (img.pix y x).g⌋₊,
      ⌊clip 0 255 (img.pix y x).b⌋₊, ⌊clip 0 255 (img.pix y x).a⌋₊⟩⟩

/-- Classifier plus compositor plus uint8 conversion: the buffer handed to
`Image.fromarray` at source line 66. -/
def remove_background_hd (img : Image) : Image := toU8 (composite img)

/-- Column `x` holds some pixel with nonzero alpha. -/
def colNonzero (img : Image) (x : Nat) : Bool :=
  (List.range img.height).any fun y => (img.pix y x).a != 0

/-- Row `y` holds some pixel with nonzero alpha. -/
def rowNonzero (img : Image) (y : Nat) : Bool :=
  (List.range img.width).any fun x => (img.pix y x).a != 0

/-- The columns of the buffer that contain content (nonzero alpha). -/
def contentCols (img : Image) : Finset Nat :=
  (Finset.range img.width).filter fun x => colNonzero img x = true

/-- The rows of the buffer that contain content (nonzero alpha). -/
def contentRows (img : Image) : Finset Nat :=
  (Finset.range img.height).filter fun y => rowNonzero img y = true

/-- A PIL-style box: left and upper inclusive, right and lower exclusive. -/
structure Box where
  left : Nat
  upper : Nat
  right : Nat
  lower : Nat
deriving DecidableEq

/-- Source line 69, `output_img.getbbox()`: the bounding box of the pixels with
nonzero alpha (PIL computes it from the alpha band of an RGBA image), or `none`
when every pixel is fully transparent. -/
def getbbox (img : Image) : Option Box :=
  if h : (contentCols img).Nonempty ∧ (contentRows img).Nonempty then
    some ⟨(contentCols img).min' h.1, (contentRows img).min' h.2,
      (contentCols img).max' h.1 + 1, (contentRows img).max' h.2 + 1⟩
  else none

/-- `Image.crop box`: the sub-buffer of size `(right-left) × (lower-upper)`. -/
def cropBox (img : Image) (bx : Box) : Image :=
  ⟨bx.right - bx.left, bx.lower - bx.upper,
    fun y x => img.pix (bx.upper + y) (bx.left + x)⟩

/-- Source lines 69–71: `bbox = output_img.getbbox(); if bbox: crop(bbox)` —
a `None` box (a 4-tuple is always truthy) silently leaves the buffer alone. -/
def cropStage (img : Image) : Image :=
  match getbbox img with
  | some bx => cropBox img bx
  | none => img

/-- The failure a run of the source can hit at the resize stage. -/
inductive PyErr where
  | zeroDivision
  | degenerateGeometry
deriving DecidableEq

/-- Python's `/`: raises `ZeroDivisionError` on a zero denominator, which we
model as an `Except` error; otherwise exact division. -/
def pydiv (a b : ℚ) : Except PyErr ℚ :=
  if b = 0 then Except.error PyErr.zeroDivision else Except.ok (a / b)

/-- Source lines 76–80: `aspect_ratio = width / height` (no guard precedes the
division) and `target_width = int(target_height * aspect_ratio)` — `int` on a
nonnegative value truncates, i.e. `Nat.floor`.  Returns the `(w, h)` pair
passed to `resize` at line 86. -/
def resizeDims (img : Image) : Except PyErr (Nat × Nat) :=
  match pydiv (img.width : ℚ) (img.height : ℚ) with
  | Except.error e => Except.error e
  | Except.ok aspect => Except.ok (⌊(target_height : ℚ) * aspect⌋₊, target_height)

/-- The width the source computes for a `w × h` cropped buffer:
`int(80 * (w / h))`, which for `h > 0` is exact floor division. -/
def target_width (w h : Nat) : Nat := (target_height * w) / h

/-- The width claim C4 ascribes to the source: round to nearest instead of
truncation.  Stated from the spec's words, for comparison with `target_width`. -/
def target_width_spec (w h : Nat) : ℤ := round ((target_height : ℚ) * w / h)

/-- Modelled from the spec: §4.4 Resampler and §4.5 Sharpener.  The source
delegates these stages to the external imaging library (`resize` with a
windowed-sinc LANCZOS filter at line 86, a fixed normalized sharpening
convolution at line 90); the spec describes both as multi-tap linear filters
applied independently to each of the four channels.  `wsum` is one output
sample: the weighted sum of the input samples under a weight family `wf`. -/
def wsum (img : Image) (wf : Nat → Nat → Nat → Nat → ℚ) (y x : Nat)
    (chan : RGBA → Nat) : ℚ :=
  (Finset.range img.height).sum fun j =>
    (Finset.range img.width).sum fun i => wf y x j i * (chan (img.pix j i) : ℚ)

/-- Modelled from the spec: the combined resample-and-sharpen stage as an
abstract multi-tap linear filter to target size `tw × th`, each output channel
clipped to `[0, 255]` and stored as uint8. -/
def filterResample (img : Image) (tw th : Nat)
    (wf : Nat → Nat → Nat → Nat → ℚ) : Image :=
  ⟨tw, th, fun y x =>
    ⟨⌊clip 0 255 (wsum img wf y x RGBA.r)⌋₊, ⌊clip 0 255 (wsum img wf y x RGBA.g)⌋₊,
      ⌊clip 0 255 (wsum img wf y x RGBA.b)⌋₊, ⌊clip 0 255 (wsum img wf y x RGBA.a)⌋₊⟩⟩

/-- A weight family is normalized at output pixel `(y, x)` when its taps over
an `h × w` source sum to one (every interpolating resampling filter and the
source's sharpening kernel are normalized in this sense). -/
def normalizedAt (wf : Nat → Nat → Nat → Nat → ℚ) (h w y x : Nat) : Prop :=
  ((Finset.range h).sum fun j => (Finset.range w).sum fun i => wf y x j i) = 1

/-- A point-mass weight family (one concrete normalized filter). -/
def pointMass (_y _x j i : Nat) : ℚ :=
  (if j = 0 then 1 else 0) * (if i = 0 then 1 else 0)

/-- A concrete 83 × 90 buffer for the C4 witness. -/
def imgC4 : Image := ⟨83, 90, fun _ _ => ⟨0, 0, 0, 0⟩⟩

/-- A concrete 2 × 2 buffer whose pixels are all fully transparent. -/
def imgT : Image := ⟨2, 2, fun _ _ => ⟨7, 7, 7, 0⟩⟩

/-- A concrete 2 × 2 buffer with a single nonzero-alpha pixel at (0, 1). -/
def imgW1 : Image :=
  ⟨2, 2, fun y x => if y = 0 ∧ x = 1 then ⟨9, 9, 9, 9⟩ else ⟨0, 0, 0, 0⟩⟩

/-- A concrete 1 × 1 buffer (fully transparent) for the C7 witness. -/
def imgH : Image := ⟨1, 1, fun _ _ => ⟨0, 0, 0, 0⟩⟩

/-- A concrete zero-height buffer, as the resize stage would receive it. -/
def imgZ : Image := ⟨3, 0, fun _ _ => ⟨0, 0, 0, 0⟩⟩

/-- 1 × 1 buffer, opaque dark pixel. -/
def imgA : Image := ⟨1, 1, fun _ _ => ⟨10, 20, 30, 0⟩⟩

/-- Same RGB as `imgA` but a different alpha channel. -/
def imgB : Image := ⟨1, 1, fun _ _ => ⟨10, 20, 30, 200⟩⟩

/-- Solid white, fully opaque. -/
def whitePix : RGBA := ⟨255, 255, 255, 255⟩

/-- The spec's solid red `(200, 30, 30)`, fully opaque. -/
def redPix : RGBA := ⟨200, 30, 30, 255⟩

/-- The concrete scenario of the spec: a 100 × 150 buffer, a solid white
border 10px thick around a solid red 80 × 130 rectangle. -/
def cavemanTest : Image :=
  ⟨100, 150, fun y x =>
    if 10 ≤ x ∧ x < 90 ∧ 10 ≤ y ∧ y < 140 then redPix else whitePix⟩

/-- The composited scenario buffer (after classifier, compositor, uint8). -/
def caveRB : Image := remove_background_hd cavemanTest

end Caveman

namespace Caveman

theorem clip01_nonneg (x : ℚ) : 0 ≤ clip 0 1 x :=
  le_min (by norm_num) (le_max_left 0 x)

theorem clip01_mono {x y : ℚ} (h : x ≤ y) : clip 0 1 x ≤ clip 0 1 y :=
  min_le_min le_rfl (max_le_max le_rfl h)

theorem clip_eq_self {lo hi x : ℚ} (h1 : lo ≤ x) (h2 : x ≤ hi) : clip lo hi x = x := by
  rw [clip, max_eq_right h1, min_eq_right h2]

theorem color_variance_sq_nonneg (r g b : ℚ) : 0 ≤ color_variance_sq r g b := by
  unfold color_variance_sq; positivity

/-- Bridge between the source's `np.std [r,g,b] < 15` and its exact squared
embedding: the square root of the population variance is below the cutoff iff
the variance is below the squared cutoff. -/
theorem sqrt_variance_lt_iff (r g b : ℚ) :
    Real.sqrt (color_variance_sq r g b : ℝ) < ((variance_cutoff : ℚ) : ℝ) ↔
      color_variance_sq r g b < variance_cutoff ^ 2 := by
  rw [Real.sqrt_lt' (by norm_num [variance_cutoff])]
  exact_mod_cast Iff.rfl

theorem colNonzero_iff (img : Image) (x : Nat) :
    colNonzero img x = true ↔ ∃ y, y < img.height ∧ (img.pix y x).a ≠ 0 := by
  simp [colNonzero, List.any_eq_true, List.mem_range, bne_iff_ne]

theorem rowNonzero_iff (img : Image) (y : Nat) :
    rowNonzero img y = true ↔ ∃ x, x < img.width ∧ (img.pix y x).a ≠ 0 := by
  simp [rowNonzero, List.any_eq_true, List.mem_range, bne_iff_ne]

theorem mem_contentCols {img : Image} {x : Nat} :
    x ∈ contentCols img ↔ x < img.width ∧ ∃ y, y < img.height ∧ (img.pix y x).a ≠ 0 := by
  rw [contentCols, Finset.mem_filter, Finset.mem_range, colNonzero_iff]

theorem mem_contentRows {img : Image} {y : Nat} :
    y ∈ contentRows img ↔ y < img.height ∧ ∃ x, x < img.width ∧ (img.pix y x).a ≠ 0 := by
  rw [contentRows, Finset.mem_filter, Finset.mem_range, rowNonzero_iff]

theorem getbbox_eq (img : Image)
    (h : (contentCols img).Nonempty ∧ (contentRows img).Nonempty) :
    getbbox img = some ⟨(contentCols img).min' h.1, (contentRows img).min' h.2,
      (contentCols img).max' h.1 + 1, (contentRows img).max' h.2 + 1⟩ := by
  rw [getbbox, dif_pos h]

/-- The width the source computes is exact floor division (for `h = 0` both
sides degenerate to `0`, division by zero being total in `ℚ` and `ℕ`). -/
theorem target_width_eq_floor (w h : Nat) :
    target_width w h = ⌊(target_height : ℚ) * w / h⌋₊ := by
  rw [target_width]
  have hcast : (target_height : ℚ) * w / h = ((target_height * w : ℕ) : ℚ) / (h : ℕ) := by
    push_cast; ring
  rw [hcast, Nat.floor_div_nat, Nat.floor_natCast]

/-- C3: a pixel is eligible for transparency iff its luminance
`0.299 R + 0.587 G + 0.114 B` is at least `white_threshold - gradient_range`
and the population standard deviation of its channels is strictly below
`variance_cutoff`; an eligible pixel's confidence is the clamped linear ramp
`clip ((L - 195) / 40) 0 1`, and every non-eligible pixel — in particular any
pixel whose standard deviation is at least the cutoff, regardless of
luminance — has `alpha_factor = 0`. -/
theorem classifier_characterization (r g b : ℚ) :
    (eligible r g b ↔ white_threshold - gradient_range ≤ brightness r g b ∧
        Real.sqrt (color_variance_sq r g b : ℝ) < ((variance_cutoff : ℚ) : ℝ)) ∧
    (eligible r g b → alpha_factor r g b =
        clip 0 1 ((brightness r g b - (white_threshold - gradient_range)) / gradient_range)) ∧
    (¬ eligible r g b → alpha_factor r g b = 0) ∧
    (((variance_cutoff : ℚ) : ℝ) ≤ Real.sqrt (color_variance_sq r g b : ℝ) →
        alpha_factor r g b = 0) := by
  refine ⟨?_, fun h => by rw [alpha_factor, if_pos h], fun h => by rw [alpha_factor, if_neg h], ?_⟩
  · unfold eligible
    rw [sqrt_variance_lt_iff]
  · intro hstd
    rw [alpha_factor, if_neg]
    intro he
    exact absurd ((sqrt_variance_lt_iff r g b).2 he.2) (not_lt.2 hstd)

/-- C5: the compositor copies the RGB channels through unchanged, writes alpha
`255 * (1 - alpha_factor)` at every pixel, and preserves the dimensions; it is
a pure function of its argument, so the input buffer is not mutated. -/
theorem compositor_behavior (img : Image) (y x : Nat) :
    ((composite img).pix y x).r = ((img.pix y x).r : ℚ) ∧
    ((composite img).pix y x).g = ((img.pix y x).g : ℚ) ∧
    ((composite img).pix y x).b = ((img.pix y x).b : ℚ) ∧
    ((composite img).pix y x).a =
      255 * (1 - alpha_factor (img.pix y x).r (img.pix y x).g (img.pix y x).b) ∧
    (composite img).width = img.width ∧ (composite img).height = img.height :=
  ⟨rfl, rfl, rfl, rfl, rfl, rfl⟩

/-- C9: among pixels whose color variance is below the cutoff, `alpha_factor`
is non-decreasing in luminance. -/
theorem alpha_factor_monotone (r1 g1 b1 r2 g2 b2 : ℚ)
    (hv1 : color_variance_sq r1 g1 b1 < variance_cutoff ^ 2)
    (hv2 : color_variance_sq r2 g2 b2 < variance_cutoff ^ 2)
    (hL : brightness r1 g1 b1 ≤ brightness r2 g2 b2) :
    alpha_factor r1 g1 b1 ≤ alpha_factor r2 g2 b2 := by
  unfold alpha_factor
  by_cases h1 : eligible r1 g1 b1
  · have h2 : eligible r2 g2 b2 := ⟨le_trans h1.1 hL, hv2⟩
    rw [if_pos h1, if_pos h2]
    refine clip01_mono ?_
    have h40 : (0 : ℚ) < gradient_range := by norm_num [gradient_range]
    rw [div_le_div_iff_of_pos_right h40]
    linarith
  · rw [if_neg h1]
    by_cases h2 : eligible r2 g2 b2
    · rw [if_pos h2]; exact clip01_nonneg _
    · rw [if_neg h2]

/-- Witness for C9 at concrete pixels: gray (200,200,200) versus white. -/
theorem alpha_factor_monotone_wit :
    color_variance_sq 200 200 200 < variance_cutoff ^ 2 ∧
    color_variance_sq 255 255 255 < variance_cutoff ^ 2 ∧
    brightness 200 200 200 ≤ brightness 255 255 255 ∧
    alpha_factor 200 200 200 ≤ alpha_factor 255 255 255 := by
  have hv1 : color_variance_sq 200 200 200 < variance_cutoff ^ 2 := by
    norm_num [color_variance_sq, variance_cutoff]
  have hv2 : color_variance_sq 255 255 255 < variance_cutoff ^ 2 := by
    norm_num [color_variance_sq, variance_cutoff]
  have hL : brightness 200 200 200 ≤ brightness 255 255 255 := by
    norm_num [brightness]
  exact ⟨hv1, hv2, hL, alpha_factor_monotone 200 200 200 255 255 255 hv1 hv2 hL⟩

/-- C8: the target dimensions preserve the aspect ratio of the cropped buffer
to within one pixel of rounding: the computed width differs from the real
value `target_height * w / h` by at most one. -/
theorem aspect_preserved (w h : Nat) (hw : 0 < w) (hh : 0 < h) :
    |((target_width w h : ℕ) : ℚ) - (target_height : ℚ) * w / h| ≤ 1 := by
  rw [target_width_eq_floor]
  set x : ℚ := (target_height : ℚ) * w / h with hx
  have hx0 : 0 ≤ x := by rw [hx]; positivity
  have h1 : ((⌊x⌋₊ : ℕ) : ℚ) ≤ x := Nat.floor_le hx0
  have h2 : x < ⌊x⌋₊ + 1 := Nat.lt_floor_add_one x
  rw [abs_le]
  constructor <;> linarith

/-- Witness for C8 on a 16:9 crop. -/
theorem aspect_preserved_wit :
    0 < 16 ∧ 0 < 9 ∧
      |((target_width 16 9 : ℕ) : ℚ) - (target_height : ℚ) * (16 : ℕ) / (9 : ℕ)| ≤ 1 :=
  ⟨by norm_num, by norm_num, aspect_preserved 16 9 (by norm_num) (by norm_num)⟩

/-- C4 as stated is false: for an 83 × 90 cropped buffer the source computes
`int(80 * 83 / 90) = 73` (truncation), while rounding would give 74. -/
theorem target_width_not_round :
    target_width 83 90 = 73 ∧ target_width_spec 83 90 = 74 ∧
      ((target_width 83 90 : ℕ) : ℤ) ≠ target_width_spec 83 90 := by
  refine ⟨by decide, ?_, ?_⟩ <;>
    norm_num [target_width_spec, target_width, target_height, round_eq, Int.floor_eq_iff]

/-- For a positive-height buffer the resize stage succeeds and returns the
truncated width: shared between several claims. -/
theorem resizeDims_ok (img : Image) (hh : 0 < img.height) :
    resizeDims img = Except.ok (target_width img.width img.height, target_height) := by
  have hq : ((img.height : ℕ) : ℚ) ≠ 0 := Nat.cast_ne_zero.2 hh.ne'
  simp only [resizeDims, pydiv, if_neg hq]
  rw [← mul_div_assoc, ← target_width_eq_floor]

/-- C4 (amended): the resampler computes the output width by truncation,
`target_width = int(target_height * (w / h)) = ⌊target_height * w / h⌋`, and
returns exactly the pair `(target_width, target_height)`. -/
theorem resize_dims_floor (img : Image) (hh : 0 < img.height) :
    resizeDims img = Except.ok (target_width img.width img.height, target_height) ∧
      target_width img.width img.height =
        ⌊(target_height : ℚ) * img.width / img.height⌋₊ :=
  ⟨resizeDims_ok img hh, target_width_eq_floor _ _⟩

/-- Witness for the amended C4 at the 83 × 90 buffer. -/
theorem resize_dims_floor_wit :
    0 < imgC4.height ∧ resizeDims imgC4 = Except.ok (73, 80) := by
  have h := (resize_dims_floor imgC4 (by norm_num [imgC4])).1
  refine ⟨by norm_num [imgC4], ?_⟩
  rw [h]
  norm_num [imgC4, target_width, target_height]

/-- C6: when no pixel has nonzero alpha, `getbbox` returns `None` and the crop
stage silently passes the buffer through unmodified (no error is signalled),
so the buffer entering the resampler is the uncropped composited buffer. -/
theorem crop_passthrough (img : Image)
    (h : ∀ y, y < img.height → ∀ x, x < img.width → (img.pix y x).a = 0) :
    getbbox img = none ∧ cropStage img = img := by
  have hc : ¬ ((contentCols img).Nonempty ∧ (contentRows img).Nonempty) := by
    rintro ⟨⟨x, hx⟩, -⟩
    rw [mem_contentCols] at hx
    obtain ⟨hxw, y, hy, ha⟩ := hx
    exact ha (h y hy x hxw)
  have hb : getbbox img = none := by rw [getbbox, dif_neg hc]
  exact ⟨hb, by rw [cropStage, hb]⟩

/-- Witness for C6 at the all-transparent buffer. -/
theorem crop_passthrough_wit :
    (∀ y, y < imgT.height → ∀ x, x < imgT.width → (imgT.pix y x).a = 0) ∧
      getbbox imgT = none ∧ cropStage imgT = imgT := by
  have hT : ∀ y, y < imgT.height → ∀ x, x < imgT.width → (imgT.pix y x).a = 0 := by
    decide
  exact ⟨hT, crop_passthrough imgT hT⟩

/-- C1: for any buffer with at least one nonzero-alpha pixel, `getbbox`
returns the minimal bounding box of the nonzero-alpha pixels — every such
pixel lies inside the box, the crop stage crops to exactly that box, and each
border row and border column of the cropped result contains at least one
nonzero-alpha pixel. -/
theorem crop_tightness (img : Image)
    (hne : ∃ y, y < img.height ∧ ∃ x, x < img.width ∧ (img.pix y x).a ≠ 0) :
    ∃ bx : Box, getbbox img = some bx ∧ cropStage img = cropBox img bx ∧
      (∀ y, y < img.height → ∀ x, x < img.width → (img.pix y x).a ≠ 0 →
        bx.left ≤ x ∧ x < bx.right ∧ bx.upper ≤ y ∧ y < bx.lower) ∧
      (∃ x, x < (cropBox img bx).width ∧ ((cropBox img bx).pix 0 x).a ≠ 0) ∧
      (∃ x, x < (cropBox img bx).width ∧
        ((cropBox img bx).pix ((cropBox img bx).height - 1) x).a ≠ 0) ∧
      (∃ y, y < (cropBox img bx).height ∧ ((cropBox img bx).pix y 0).a ≠ 0) ∧
      (∃ y, y < (cropBox img bx).height ∧
        ((cropBox img bx).pix y ((cropBox img bx).width - 1)).a ≠ 0) := by
  obtain ⟨y0, hy0, x0, hx0, ha0⟩ := hne
  have hcne : (contentCols img).Nonempty :=
    ⟨x0, mem_contentCols.2 ⟨hx0, y0, hy0, ha0⟩⟩
  have hrne : (contentRows img).Nonempty :=
    ⟨y0, mem_contentRows.2 ⟨hy0, x0, hx0, ha0⟩⟩
  have hp : (contentCols img).Nonempty ∧ (contentRows img).Nonempty := ⟨hcne, hrne⟩
  set cmin := (contentCols img).min' hcne with hcmin
  set cmax := (contentCols img).max' hcne with hcmax
  set rmin := (contentRows img).min' hrne with hrmin
  set rmax := (contentRows img).max' hrne with hrmax
  have hbb : getbbox img = some ⟨cmin, rmin, cmax + 1, rmax + 1⟩ := getbbox_eq img hp
  refine ⟨⟨cmin, rmin, cmax + 1, rmax + 1⟩, hbb, by rw [cropStage, hbb], ?_, ?_, ?_, ?_, ?_⟩
  · intro y hy x hx ha
    have hxc : x ∈ contentCols img := mem_contentCols.2 ⟨hx, y, hy, ha⟩
    have hyr : y ∈ contentRows img := mem_contentRows.2 ⟨hy, x, hx, ha⟩
    exact ⟨(contentCols img).min'_le x hxc,
      Nat.lt_succ_of_le ((contentCols img).le_max' x hxc),
      (contentRows img).min'_le y hyr,
      Nat.lt_succ_of_le ((contentRows img).le_max' y hyr)⟩
  · -- top border row of the crop (row `rmin` of the source)
    have hm : rmin ∈ contentRows img := (contentRows img).min'_mem hrne
    obtain ⟨hrh, x1, hx1, ha1⟩ := mem_contentRows.1 hm
    have hxc : x1 ∈ contentCols img := mem_contentCols.2 ⟨hx1, rmin, hrh, ha1⟩
    have hle : cmin ≤ x1 := (contentCols img).min'_le x1 hxc
    have hge : x1 ≤ cmax := (contentCols img).le_max' x1 hxc
    refine ⟨x1 - cmin, ?_, ?_⟩
    · show x1 - cmin < cmax + 1 - cmin
      omega
    · show (img.pix (rmin + 0) (cmin + (x1 - cmin))).a ≠ 0
      rw [Nat.add_zero, Nat.add_sub_cancel' hle]
      exact ha1
  · -- bottom border row of the crop (row `rmax` of the source)
    have hm : rmax ∈ contentRows img := (contentRows img).max'_mem hrne
    obtain ⟨hrh, x1, hx1, ha1⟩ := mem_contentRows.1 hm
    have hxc : x1 ∈ contentCols img := mem_contentCols.2 ⟨hx1, rmax, hrh, ha1⟩
    have hle : cmin ≤ x1 := (contentCols img).min'_le x1 hxc
    have hge : x1 ≤ cmax := (contentCols img).le_max' x1 hxc
    have hrr : rmin ≤ rmax := (contentRows img).min'_le rmax ((contentRows img).max'_mem hrne)
    refine ⟨x1 - cmin, ?_, ?_⟩
    · show x1 - cmin < cmax + 1 - cmin
      omega
    · show (img.pix (rmin + (rmax + 1 - rmin - 1)) (cmin + (x1 - cmin))).a ≠ 0
      have he1 : rmin + (rmax + 1 - rmin - 1) = rmax := by omega
      have he2 : cmin + (x1 - cmin) = x1 := by omega
      rw [he1, he2]
      exact ha1
  · -- left border column of the crop (column `cmin` of the source)
    have hm : cmin ∈ contentCols img := (contentCols img).min'_mem hcne
    obtain ⟨hcw, y1, hy1, ha1⟩ := mem_contentCols.1 hm
    have hyr : y1 ∈ contentRows img := mem_contentRows.2 ⟨hy1, cmin, hcw, ha1⟩
    have hle : rmin ≤ y1 := (contentRows img).min'_le y1 hyr
    have hge : y1 ≤ rmax := (contentRows img).le_max' y1 hyr
    refine ⟨y1 - rmin, ?_, ?_⟩
    · show y1 - rmin < rmax + 1 - rmin
      omega
    · show (img.pix (rmin + (y1 - rmin)) (cmin + 0)).a ≠ 0
      have he1 : rmin + (y1 - rmin) = y1 := by omega
      rw [he1, Nat.add_zero]
      exact ha1
  · -- right border column of the crop (column `cmax` of the source)
    have hm : cmax ∈ contentCols img := (contentCols img).max'_mem hcne
    obtain ⟨hcw, y1, hy1, ha1⟩ := mem_contentCols.1 hm
    have hyr : y1 ∈ contentRows img := mem_contentRows.2 ⟨hy1, cmax, hcw, ha1⟩
    have hle : rmin ≤ y1 := (contentRows img).min'_le y1 hyr
    have hge : y1 ≤ rmax := (contentRows img).le_max' y1 hyr
    have hcc : cmin ≤ cmax := (contentCols img).min'_le cmax ((contentCols img).max'_mem hcne)
    refine ⟨y1 - rmin, ?_, ?_⟩
    · show y1 - rmin < rmax + 1 - rmin
      omega
    · show (img.pix (rmin + (y1 - rmin)) (cmin + (cmax + 1 - cmin - 1))).a ≠ 0
      have he1 : rmin + (y1 - rmin) = y1 := by omega
      have he2 : cmin + (cmax + 1 - cmin - 1) = cmax := by omega
      rw [he1, he2]
      exact ha1

/-- Witness for C1 at the buffer with one content pixel. -/
theorem crop_tightness_wit :
    (∃ y, y < imgW1.height ∧ ∃ x, x < imgW1.width ∧ (imgW1.pix y x).a ≠ 0) ∧
      ∃ bx : Box, getbbox imgW1 = some bx ∧ cropStage imgW1 = cropBox imgW1 bx := by
  have hne : ∃ y, y < imgW1.height ∧ ∃ x, x < imgW1.width ∧ (imgW1.pix y x).a ≠ 0 :=
    ⟨0, by norm_num [imgW1], 1, by norm_num [imgW1], by decide⟩
  obtain ⟨bx, h1, h2, -⟩ := crop_tightness imgW1 hne
  exact ⟨hne, bx, h1, h2⟩

/-- The crop stage never shrinks a buffer to height zero: shared helper. -/
theorem cropStage_height_pos (img : Image) (hh : 0 < img.height) :
    0 < (cropStage img).height := by
  by_cases hc : (contentCols img).Nonempty ∧ (contentRows img).Nonempty
  · rw [cropStage, getbbox_eq img hc]
    show 0 < (contentRows img).max' hc.2 + 1 - (contentRows img).min' hc.2
    have h1 : (contentRows img).min' hc.2 ≤ (contentRows img).max' hc.2 :=
      (contentRows img).min'_le _ ((contentRows img).max'_mem hc.2)
    omega
  · have hb : getbbox img = none := by rw [getbbox, dif_neg hc]
    rw [cropStage, hb]
    exact hh

/-- C7 as stated is false: the source has no height guard before the
aspect-ratio division — a zero-height buffer reaching the resize stage makes
the source execute `width / height` with a zero denominator, dying with an
unguarded `ZeroDivisionError` instead of a reported `DegenerateGeometryError`
precondition violation. -/
theorem resize_unguarded_zero_division :
    resizeDims imgZ = Except.error PyErr.zeroDivision ∧
      Except.error PyErr.zeroDivision ≠
        (Except.error PyErr.degenerateGeometry : Except PyErr (Nat × Nat)) := by
  constructor
  · simp [resizeDims, pydiv, imgZ]
  · simp

/-- C7 (amended): the source has no explicit zero-height guard, but for every
input buffer of positive height the crop stage yields a buffer of positive
height, so within the pipeline the aspect-ratio division never executes with a
zero denominator and the resize stage always succeeds. -/
theorem resize_guarded_by_crop (img : Image) (hh : 0 < img.height) :
    0 < (cropStage img).height ∧
      resizeDims (cropStage img) =
        Except.ok (target_width (cropStage img).width (cropStage img).height,
          target_height) :=
  ⟨cropStage_height_pos img hh, resizeDims_ok _ (cropStage_height_pos img hh)⟩

/-- Witness for the amended C7 at a concrete 1 × 1 buffer. -/
theorem resize_guarded_by_crop_wit :
    0 < imgH.height ∧ 0 < (cropStage imgH).height ∧
      resizeDims (cropStage imgH) =
        Except.ok (target_width (cropStage imgH).width (cropStage imgH).height,
          target_height) := by
  have h := resize_guarded_by_crop imgH (by norm_num [imgH])
  exact ⟨by norm_num [imgH], h⟩

/-- C10: the classifier-plus-compositor output depends only on the input's RGB
channels and never on its alpha channel — two buffers of equal dimensions that
agree on R, G, B at every pixel but differ arbitrarily in alpha produce
identical output buffers — and any pixel not classified as background comes
out fully opaque (alpha 255), its source alpha discarded. -/
theorem composite_rgb_only (img1 img2 : Image)
    (hw : img1.width = img2.width) (hh : img1.height = img2.height)
    (hrgb : ∀ y, y < img1.height → ∀ x, x < img1.width →
      (img1.pix y x).r = (img2.pix y x).r ∧ (img1.pix y x).g = (img2.pix y x).g ∧
        (img1.pix y x).b = (img2.pix y x).b) :
    (remove_background_hd img1).width = (remove_background_hd img2).width ∧
    (remove_background_hd img1).height = (remove_background_hd img2).height ∧
    (∀ y, y < img1.height → ∀ x, x < img1.width →
      (remove_background_hd img1).pix y x = (remove_background_hd img2).pix y x) ∧
    (∀ y x, ¬ eligible ((img1.pix y x).r : ℚ) ((img1.pix y x).g : ℚ)
        ((img1.pix y x).b : ℚ) →
      ((remove_background_hd img1).pix y x).a = 255) := by
  refine ⟨by simp [remove_background_hd, toU8, composite, hw],
    by simp [remove_background_hd, toU8, composite, hh], ?_, ?_⟩
  · intro y hy x hx
    obtain ⟨hr, hg, hb⟩ := hrgb y hy x hx
    simp only [remove_background_hd, toU8, composite, hr, hg, hb]
  · intro y x hne
    have hf : alpha_factor ((img1.pix y x).r : ℚ) ((img1.pix y x).g : ℚ)
        ((img1.pix y x).b : ℚ) = 0 := by
      rw [alpha_factor, if_neg hne]
    show ⌊clip 0 255 (255 * (1 - alpha_factor ((img1.pix y x).r : ℚ)
      ((img1.pix y x).g : ℚ) ((img1.pix y x).b : ℚ)))⌋₊ = 255
    rw [hf]
    have h255 : (255 : ℚ) * (1 - 0) = ((255 : ℕ) : ℚ) := by norm_num
    rw [h255, clip_eq_self (by positivity) (by norm_num), Nat.floor_natCast]

/-- Witness for C10: two 1 × 1 buffers agreeing on RGB, differing in alpha. -/
theorem composite_rgb_only_wit :
    imgA.width = imgB.width ∧ imgA.height = imgB.height ∧
      (∀ y, y < imgA.height → ∀ x, x < imgA.width →
        (remove_background_hd imgA).pix y x = (remove_background_hd imgB).pix y x) := by
  have hrgb : ∀ y, y < imgA.height → ∀ x, x < imgA.width →
      (imgA.pix y x).r = (imgB.pix y x).r ∧ (imgA.pix y x).g = (imgB.pix y x).g ∧
        (imgA.pix y x).b = (imgB.pix y x).b := by decide
  have h := composite_rgb_only imgA imgB rfl rfl hrgb
  exact ⟨rfl, rfl, h.2.2.1⟩

theorem rb_pix (img : Image) (y x : Nat) :
    (remove_background_hd img).pix y x =
      ⟨⌊clip 0 255 ((img.pix y x).r : ℚ)⌋₊, ⌊clip 0 255 ((img.pix y x).g : ℚ)⌋₊,
        ⌊clip 0 255 ((img.pix y x).b : ℚ)⌋₊,
        ⌊clip 0 255 (255 * (1 - alpha_factor ((img.pix y x).r : ℚ)
          ((img.pix y x).g : ℚ) ((img.pix y x).b : ℚ)))⌋₊⟩ := rfl

theorem floor_clip_cast (c : Nat) (hc : c ≤ 255) : ⌊clip 0 255 ((c : ℕ) : ℚ)⌋₊ = c := by
  rw [clip_eq_self (by positivity) (by exact_mod_cast hc), Nat.floor_natCast]

theorem af_white : alpha_factor 255 255 255 = 1 := by
  norm_num [alpha_factor, eligible, brightness, color_variance_sq, clip,
    white_threshold, gradient_range, variance_cutoff]

theorem af_red : alpha_factor 200 30 30 = 0 := by
  norm_num [alpha_factor, eligible, brightness, color_variance_sq, clip,
    white_threshold, gradient_range, variance_cutoff]

theorem rb_pix_red (img : Image) (y x : Nat) (hp : img.pix y x = redPix) :
    (remove_background_hd img).pix y x = redPix := by
  rw [rb_pix, hp]
  norm_num [redPix, af_red, clip_eq_self, Nat.floor_ofNat]

theorem rb_pix_white (img : Image) (y x : Nat) (hp : img.pix y x = whitePix) :
    (remove_background_hd img).pix y x = ⟨255, 255, 255, 0⟩ := by
  rw [rb_pix, hp]
  norm_num [whitePix, af_white, clip_eq_self, Nat.floor_ofNat, Nat.floor_zero]

theorem cave_rb_pix (y x : Nat) :
    caveRB.pix y x =
      if 10 ≤ x ∧ x < 90 ∧ 10 ≤ y ∧ y < 140 then redPix else ⟨255, 255, 255, 0⟩ := by
  by_cases h : 10 ≤ x ∧ x < 90 ∧ 10 ≤ y ∧ y < 140
  · rw [if_pos h]
    refine rb_pix_red cavemanTest y x ?_
    show (if 10 ≤ x ∧ x < 90 ∧ 10 ≤ y ∧ y < 140 then redPix else whitePix) = redPix
    rw [if_pos h]
  · rw [if_neg h]
    refine rb_pix_white cavemanTest y x ?_
    show (if 10 ≤ x ∧ x < 90 ∧ 10 ≤ y ∧ y < 140 then redPix else whitePix) = whitePix
    rw [if_neg h]

theorem cave_alpha (y x : Nat) :
    (caveRB.pix y x).a ≠ 0 ↔ (10 ≤ x ∧ x < 90 ∧ 10 ≤ y ∧ y < 140) := by
  rw [cave_rb_pix]
  by_cases h : 10 ≤ x ∧ x < 90 ∧ 10 ≤ y ∧ y < 140
  · rw [if_pos h]
    simpa [redPix] using h
  · rw [if_neg h]
    simpa using h

theorem cave_mem_cols (x : Nat) :
    x ∈ contentCols caveRB ↔ 10 ≤ x ∧ x < 90 := by
  rw [mem_contentCols]
  constructor
  · rintro ⟨-, y, -, ha⟩
    have h := (cave_alpha y x).1 ha
    exact ⟨h.1, h.2.1⟩
  · intro hx
    refine ⟨?_, 10, ?_, (cave_alpha 10 x).2 ⟨hx.1, hx.2, by norm_num⟩⟩
    · show x < 100
      omega
    · show (10 : ℕ) < 150
      norm_num

theorem cave_mem_rows (y : Nat) :
    y ∈ contentRows caveRB ↔ 10 ≤ y ∧ y < 140 := by
  rw [mem_contentRows]
  constructor
  · rintro ⟨-, x, -, ha⟩
    have h := (cave_alpha y x).1 ha
    exact ⟨h.2.2.1, h.2.2.2⟩
  · intro hy
    refine ⟨?_, 10, ?_, (cave_alpha y 10).2 ⟨by norm_num, by norm_num, hy.1, hy.2⟩⟩
    · show y < 150
      omega
    · show (10 : ℕ) < 100
      norm_num

theorem cave_bbox : getbbox caveRB = some ⟨10, 10, 90, 140⟩ := by
  have hc : (contentCols caveRB).Nonempty := ⟨10, (cave_mem_cols 10).2 (by norm_num)⟩
  have hr : (contentRows caveRB).Nonempty := ⟨10, (cave_mem_rows 10).2 (by norm_num)⟩
  have hp : (contentCols caveRB).Nonempty ∧ (contentRows caveRB).Nonempty := ⟨hc, hr⟩
  have h1 : (contentCols caveRB).min' hp.1 = 10 :=
    le_antisymm ((contentCols caveRB).min'_le 10 ((cave_mem_cols 10).2 (by norm_num)))
      ((contentCols caveRB).le_min' hp.1 10 fun z hz => ((cave_mem_cols z).1 hz).1)
  have h2 : (contentCols caveRB).max' hp.1 = 89 :=
    le_antisymm ((contentCols caveRB).max'_le hp.1 89 fun z hz => by
        have h := (cave_mem_cols z).1 hz; omega)
      ((contentCols caveRB).le_max' 89 ((cave_mem_cols 89).2 (by norm_num)))
  have h3 : (contentRows caveRB).min' hp.2 = 10 :=
    le_antisymm ((contentRows caveRB).min'_le 10 ((cave_mem_rows 10).2 (by norm_num)))
      ((contentRows caveRB).le_min' hp.2 10 fun z hz => ((cave_mem_rows z).1 hz).1)
  have h4 : (contentRows caveRB).max' hp.2 = 139 :=
    le_antisymm ((contentRows caveRB).max'_le hp.2 139 fun z hz => by
        have h := (cave_mem_rows z).1 hz; omega)
      ((contentRows caveRB).le_max' 139 ((cave_mem_rows 139).2 (by norm_num)))
  rw [getbbox_eq caveRB hp, h1, h2, h3, h4]

theorem cave_crop_eq : cropStage caveRB = cropBox caveRB ⟨10, 10, 90, 140⟩ := by
  rw [cropStage, cave_bbox]

theorem cave_crop_width : (cropStage caveRB).width = 80 := by rw [cave_crop_eq]; rfl

theorem cave_crop_height : (cropStage caveRB).height = 130 := by rw [cave_crop_eq]; rfl

theorem cave_crop_pix (y x : Nat) (hy : y < 130) (hx : x < 80) :
    (cropStage caveRB).pix y x = redPix := by
  rw [cave_crop_eq]
  show caveRB.pix (10 + y) (10 + x) = redPix
  rw [cave_rb_pix, if_pos (by omega)]

theorem cave_resize : resizeDims (cropStage caveRB) = Except.ok (49, 80) := by
  have hh : 0 < (cropStage caveRB).height := by rw [cave_crop_height]; norm_num
  rw [resizeDims_ok (cropStage caveRB) hh, cave_crop_width, cave_crop_height]
  norm_num [target_width, target_height]

theorem wsum_const (img : Image) (c : RGBA)
    (hpix : ∀ j, j < img.height → ∀ i, i < img.width → img.pix j i = c)
    (wf : Nat → Nat → Nat → Nat → ℚ) (y x : Nat)
    (hn : normalizedAt wf img.height img.width y x) (chan : RGBA → Nat) :
    wsum img wf y x chan = (chan c : ℚ) := by
  unfold wsum
  have hrow : ∀ j ∈ Finset.range img.height,
      ((Finset.range img.width).sum fun i => wf y x j i * (chan (img.pix j i) : ℚ)) =
        ((Finset.range img.width).sum fun i => wf y x j i) * (chan c : ℚ) := by
    intro j hj
    rw [Finset.sum_mul]
    refine Finset.sum_congr rfl fun i hi => ?_
    rw [hpix j (Finset.mem_range.1 hj) i (Finset.mem_range.1 hi)]
  rw [Finset.sum_congr rfl hrow, ← Finset.sum_mul,
    show ((Finset.range img.height).sum fun j =>
      (Finset.range img.width).sum fun i => wf y x j i) = 1 from hn, one_mul]

theorem filterResample_const (img : Image) (c : RGBA)
    (hr : c.r ≤ 255) (hg : c.g ≤ 255) (hb : c.b ≤ 255) (ha : c.a ≤ 255)
    (hpix : ∀ j, j < img.height → ∀ i, i < img.width → img.pix j i = c)
    (tw th : Nat) (wf : Nat → Nat → Nat → Nat → ℚ) (y x : Nat)
    (hn : normalizedAt wf img.height img.width y x) :
    (filterResample img tw th wf).pix y x = c := by
  show (⟨⌊clip 0 255 (wsum img wf y x RGBA.r)⌋₊, ⌊clip 0 255 (wsum img wf y x RGBA.g)⌋₊,
    ⌊clip 0 255 (wsum img wf y x RGBA.b)⌋₊, ⌊clip 0 255 (wsum img wf y x RGBA.a)⌋₊⟩ : RGBA) = c
  rw [wsum_const img c hpix wf y x hn RGBA.r, wsum_const img c hpix wf y x hn RGBA.g,
    wsum_const img c hpix wf y x hn RGBA.b, wsum_const img c hpix wf y x hn RGBA.a,
    floor_clip_cast c.r hr, floor_clip_cast c.g hg, floor_clip_cast c.b hb,
    floor_clip_cast c.a ha]

theorem pointMass_normalized (h w y x : Nat) (hh : 0 < h) (hw : 0 < w) :
    normalizedAt pointMass h w y x := by
  unfold normalizedAt pointMass
  have hin : ((Finset.range w).sum fun i => if i = 0 then (1 : ℚ) else 0) = 1 := by
    rw [Finset.sum_ite_eq' (Finset.range w) 0 fun _ => (1 : ℚ)]
    simp [Finset.mem_range, hw]
  have hjn : ((Finset.range h).sum fun j => if j = 0 then (1 : ℚ) else 0) = 1 := by
    rw [Finset.sum_ite_eq' (Finset.range h) 0 fun _ => (1 : ℚ)]
    simp [Finset.mem_range, hh]
  calc ((Finset.range h).sum fun j => (Finset.range w).sum fun i =>
        (if j = 0 then (1 : ℚ) else 0) * (if i = 0 then 1 else 0))
      = (Finset.range h).sum (fun j => (if j = 0 then (1 : ℚ) else 0) *
          ((Finset.range w).sum fun i => if i = 0 then (1 : ℚ) else 0)) := by
        refine Finset.sum_congr rfl fun j _ => ?_
        rw [Finset.mul_sum]
    _ = 1 := by rw [hin]; simpa using hjn

/-- C2: on the spec's concrete scenario — a 100 × 150 buffer with a solid
white 10px border around a solid red (200, 30, 30) 80 × 130 rectangle, default
thresholds — the classifier assigns `alpha_factor = 1` to every border pixel
and `0` to every interior pixel, the crop stage crops to the 80 × 130 content
box, the resize stage computes the 49 × 80 target, and for every normalized
resample-and-sharpen filter (the stage the source delegates to the imaging
library, modelled from the spec) the final buffer is 49 × 80 solid opaque red
with no residual border pixels. -/
theorem caveman_scenario (wf : Nat → Nat → Nat → Nat → ℚ)
    (hwf : ∀ y, y < 80 → ∀ x, x < 49 → normalizedAt wf 130 80 y x) :
    (∀ y x, y < 150 → x < 100 → ¬ (10 ≤ x ∧ x < 90 ∧ 10 ≤ y ∧ y < 140) →
      alpha_factor ((cavemanTest.pix y x).r : ℚ) ((cavemanTest.pix y x).g : ℚ)
        ((cavemanTest.pix y x).b : ℚ) = 1) ∧
    (∀ y x, (10 ≤ x ∧ x < 90 ∧ 10 ≤ y ∧ y < 140) →
      alpha_factor ((cavemanTest.pix y x).r : ℚ) ((cavemanTest.pix y x).g : ℚ)
        ((cavemanTest.pix y x).b : ℚ) = 0) ∧
    getbbox caveRB = some ⟨10, 10, 90, 140⟩ ∧
    (cropStage caveRB).width = 80 ∧
    (cropStage caveRB).height = 130 ∧
    resizeDims (cropStage caveRB) = Except.ok (49, 80) ∧
    (filterResample (cropStage caveRB) 49 80 wf).width = 49 ∧
    (filterResample (cropStage caveRB) 49 80 wf).height = 80 ∧
    (∀ y, y < 80 → ∀ x, x < 49 →
      (filterResample (cropStage caveRB) 49 80 wf).pix y x = redPix) := by
  refine ⟨?_, ?_, cave_bbox, cave_crop_width, cave_crop_height, cave_resize, rfl, rfl, ?_⟩
  · intro y x _ _ h
    have hp : cavemanTest.pix y x = whitePix := by
      show (if 10 ≤ x ∧ x < 90 ∧ 10 ≤ y ∧ y < 140 then redPix else whitePix) = whitePix
      rw [if_neg h]
    rw [hp]
    norm_num [whitePix, af_white]
  · intro y x h
    have hp : cavemanTest.pix y x = redPix := by
      show (if 10 ≤ x ∧ x < 90 ∧ 10 ≤ y ∧ y < 140 then redPix else whitePix) = redPix
      rw [if_pos h]
    rw [hp]
    norm_num [redPix, af_red]
  · intro y hy x hx
    refine filterResample_const (cropStage caveRB) redPix (by norm_num [redPix])
      (by norm_num [redPix]) (by norm_num [redPix]) (by norm_num [redPix]) ?_ 49 80 wf y x ?_
    · intro j hj i hi
      rw [cave_crop_height] at hj
      rw [cave_crop_width] at hi
      exact cave_crop_pix j i hj hi
    · rw [cave_crop_height, cave_crop_width]
      exact hwf y hy x hx

/-- Witness for C2 with a concrete normalized (point-mass) filter. -/
theorem caveman_scenario_wit :
    (∀ y, y < 80 → ∀ x, x < 49 → normalizedAt pointMass 130 80 y x) ∧
      resizeDims (cropStage caveRB) = Except.ok (49, 80) ∧
      (∀ y, y < 80 → ∀ x, x < 49 →
        (filterResample (cropStage caveRB) 49 80 pointMass).pix y x = redPix) := by
  have hwf : ∀ y, y < 80 → ∀ x, x < 49 → normalizedAt pointMass 130 80 y x :=
    fun y _ x _ => pointMass_normalized 130 80 y x (by norm_num) (by norm_num)
  have h := caveman_scenario pointMass hwf
  exact ⟨hwf, h.2.2.2.2.2.1, h.2.2.2.2.2.2.2.2⟩

/- Sanity checks of the embedding on concrete values. -/
example : brightness 255 255 255 = 255 := by norm_num [brightness]
example : alpha_factor 255 255 255 = 1 := by
  norm_num [alpha_factor, eligible, brightness, color_variance_sq, clip,
    white_threshold, gradient_range, variance_cutoff]
example : alpha_factor 200 30 30 = 0 := by
  norm_num [alpha_factor, eligible, brightness, color_variance_sq, clip,
    white_threshold, gradient_range, variance_cutoff]
example : target_width 80 130 = 49 := by decide
example : target_width 83 90 = 73 := by decide

end Caveman
